import Mathlib

/-!
Shallow embedding of the SyncNotes conflict engine
(`client/src/utils/conflict/ConflictDetector.js`, `ConflictResolver.js`,
`ConflictManager.js`) and the note-saving path of
`client/src/utils/storage/IndexedDBStorage.js`, together with proofs of the
frozen claims about them.

JavaScript idioms are modelled explicitly:
* `x || d` on numbers defaults both `undefined` and `0` to `d`
  (`jsOrNum`), and on strings defaults both `undefined` and `""` (`jsOrStr`);
* 32-bit wrap-around (`hash & hash`) is `% 2^32` recentred to `[-2^31, 2^31)`;
* `Date.now()` and `Math.random()` are nondeterministic inputs, passed to the
  embedded operations as explicit arguments (`now`, `randSuffix`, `freshId`);
* a thrown `Error` is an `Except.error` carrying the message string.
-/

namespace SyncNotes

/-- JS `v || d` for an optional number: `undefined` and `0` are falsy. -/
def jsOrNum (v : Option Int) (d : Int) : Int :=
  match v with
  | none => d
  | some t => if t = 0 then d else t

/-- JS `v || d` for an optional string: `undefined` and `""` are falsy. -/
def jsOrStr (v : Option String) (d : String) : String :=
  match v with
  | none => d
  | some s => if s = "" then d else s

/-- `VersionedContent` (JSDoc typedef in ConflictDetector.js). -/
structure VersionedContent where
  content : String
  version : Int
  timestamp : Int
  deviceId : String
  hash : String
deriving Repr, DecidableEq

/-- The two conflict classifications produced by `detectConflict`. -/
inductive ConflictType where
  | concurrent_edit
  | offline_divergence
deriving Repr, DecidableEq

/-- `ConflictInfo` (JSDoc typedef in ConflictDetector.js); `commonAncestor`
is optional and is never set by `detectConflict` itself. -/
structure ConflictInfo where
  type : ConflictType
  localVersion : VersionedContent
  remoteVersion : VersionedContent
  commonAncestor : Option VersionedContent := none
deriving Repr, DecidableEq

/-- The default `conflictWindow` from the `ConflictDetector` constructor. -/
def defaultConflictWindow : Int := 5000

/-- `ConflictDetector.detectConflict(local, remote)`, with the detector's
`conflictWindow` passed explicitly. -/
def detectConflict (conflictWindow : Int) (l r : VersionedContent) :
    Option ConflictInfo :=
  if l.hash = r.hash ∨ l.content = r.content then
    none
  else if l.version = r.version then
    some { type := .concurrent_edit, localVersion := l, remoteVersion := r }
  else if |l.timestamp - r.timestamp| < conflictWindow then
    some { type := .concurrent_edit, localVersion := l, remoteVersion := r }
  else if l.version < r.version ∧ l.hash ≠ r.hash then
    some { type := .offline_divergence, localVersion := l, remoteVersion := r }
  else
    none

/-! ### The content fingerprint `hashContent` -/

/-- Recentre an integer into the signed 32-bit range, as JS `x & x` does. -/
def toInt32 (x : Int) : Int := (x + 2 ^ 31) % 2 ^ 32 - 2 ^ 31

/-- UTF-16 code units of a string, as JS `charCodeAt` enumerates them. -/
def utf16Units (s : String) : List Nat :=
  s.data.flatMap fun c =>
    if c.toNat < 65536 then [c.toNat]
    else [55296 + (c.toNat - 65536) / 1024, 56320 + (c.toNat - 65536) % 1024]

/-- One step of the rolling hash: `hash = ((hash << 5) - hash) + unit`
followed by the `& hash` truncation to 32 bits. -/
def hashStep (h : Int) (unit : Nat) : Int :=
  toInt32 (toInt32 (h * 32) - h + unit)

/-- Digit characters `0`-`9`, `a`-`z` used by JS `Number.prototype.toString(36)`. -/
def digit36 (n : Nat) : Char :=
  if n < 10 then Char.ofNat (48 + n) else Char.ofNat (87 + n)

/-- Big-endian base-`base` digits of `n`, prepended to `acc`; the fuel only
needs to be at least the number of digits, and `n + 1` always is. -/
def natBaseAux (base : Nat) : Nat → Nat → List Char → List Char
  | 0, _, acc => acc
  | _ + 1, 0, acc => acc
  | fuel + 1, n, acc => natBaseAux base fuel (n / base) (digit36 (n % base) :: acc)

/-- JS `n.toString(base)` for a natural number. -/
def natToBase (base n : Nat) : String :=
  if n = 0 then "0" else String.mk (natBaseAux base (n + 1) n [])

/-- JS `i.toString(base)` for an integer (sign prepended). -/
def intToBase (base : Nat) (i : Int) : String :=
  if i < 0 then "-" ++ natToBase base i.natAbs else natToBase base i.toNat

/-- `ConflictDetector.hashContent(content)`: 32-bit rolling hash of the
UTF-16 code units, rendered in base 36. -/
def hashContent (content : String) : String :=
  intToBase 36 ((utf16Units content).foldl hashStep 0)

/-! ### Line-based three-way merge -/

/-- JS `str.split('\n')` (splitting on every newline, keeping empty parts). -/
def splitLinesAux : List Char → List Char → List String
  | [], acc => [String.mk acc.reverse]
  | c :: cs, acc =>
    if c = '\n' then String.mk acc.reverse :: splitLinesAux cs []
    else splitLinesAux cs (c :: acc)

/-- The lines of a string, as `content.split('\n')` produces them. -/
def jsLines (s : String) : List String := splitLinesAux s.data []

/-- JS `lines.join('\n')`. -/
def joinLines : List String → String
  | [] => ""
  | [s] => s
  | s :: rest => s ++ "\n" ++ joinLines rest

/-- `pat` occurs at the start of `l`. -/
def startsWithL : List Char → List Char → Bool
  | [], _ => true
  | _ :: _, [] => false
  | a :: pat, b :: l => a == b && startsWithL pat l

/-- `pat` occurs contiguously somewhere in `l`. -/
def hasSeg (pat : List Char) : List Char → Bool
  | [] => startsWithL pat []
  | c :: cs => startsWithL pat (c :: cs) || hasSeg pat cs

/-- `s` contains `pat` as a contiguous substring. -/
def containsStr (s pat : String) : Bool := hasSeg pat.data s.data

/-- The conflict-hunk opening marker emitted by `_mergeLines`. -/
def localMarker : String := "<<<<<<< LOCAL"

/-- The conflict-hunk middle marker emitted by `_mergeLines`. -/
def sepMarker : String := "======="

/-- The conflict-hunk closing marker emitted by `_mergeLines`. -/
def remoteMarker : String := ">>>>>>> REMOTE"

/-- `ConflictRegion` (JSDoc typedef): one unresolved hunk of a merge. -/
structure ConflictRegion where
  startLine : Nat
  endLine : Nat
  localContent : String
  remoteContent : String
deriving Repr, DecidableEq

/-- `MergeResult` (JSDoc typedef); on success the JS object carries no
`conflicts` field, modelled as the empty list. -/
structure MergeResult where
  success : Bool
  merged : String
  conflicts : List ConflictRegion
deriving Repr, DecidableEq

/-- The loop body of `ConflictDetector._mergeLines`, with the three cursors
represented by the unconsumed suffixes of the three line lists and the
`merged`/`conflicts` arrays as accumulators.  Out-of-range reads
(`lines[idx] || ''`) are `headD ""`, and advancing a cursor past the end
keeps the suffix empty, matching the JS index arithmetic.  Each iteration
strictly shrinks the sum of the suffix lengths, so the explicit fuel never
runs out when it starts above that sum (`mergeLinesF_fuel` below). -/
def mergeLinesF (fuel : Nat) (b l r : List String) (acc : List String)
    (cacc : List ConflictRegion) : List String × List ConflictRegion :=
  match fuel with
  | 0 => (acc, cacc)
  | fuel + 1 =>
    if b = [] ∧ l = [] ∧ r = [] then (acc, cacc)
    else
      let baseLine := b.headD ""
      let localLine := l.headD ""
      let remoteLine := r.headD ""
      if baseLine = localLine ∧ baseLine = remoteLine then
        mergeLinesF fuel b.tail l.tail r.tail (acc ++ [baseLine]) cacc
      else if baseLine = localLine ∧ baseLine ≠ remoteLine then
        mergeLinesF fuel b.tail l.tail r.tail (acc ++ [remoteLine]) cacc
      else if baseLine = remoteLine ∧ baseLine ≠ localLine then
        mergeLinesF fuel b.tail l.tail r.tail (acc ++ [localLine]) cacc
      else
        let localConf := l.takeWhile fun s => s != baseLine
        let lRest := l.dropWhile fun s => s != baseLine
        let remoteConf := r.takeWhile fun s => s != baseLine
        let rRest := r.dropWhile fun s => s != baseLine
        let hunk :=
          localMarker :: (localConf ++ sepMarker :: (remoteConf ++ [remoteMarker]))
        let region : ConflictRegion :=
          { startLine := acc.length
            endLine := acc.length + hunk.length - 1
            localContent := joinLines localConf
            remoteContent := joinLines remoteConf }
        mergeLinesF fuel b.tail lRest rRest (acc ++ hunk) (cacc ++ [region])

/-- `ConflictDetector._mergeLines(baseLines, localLines, remoteLines)`. -/
def mergeLines (b l r : List String) : List String × List ConflictRegion :=
  mergeLinesF (b.length + l.length + r.length + 1) b l r [] []

/-- `ConflictDetector.threeWayMerge(base, local, remote)`. -/
def threeWayMerge (base loc rem : String) : MergeResult :=
  if loc = rem then { success := true, merged := loc, conflicts := [] }
  else if base = loc then { success := true, merged := rem, conflicts := [] }
  else if base = rem then { success := true, merged := loc, conflicts := [] }
  else
    let result := mergeLines (jsLines base) (jsLines loc) (jsLines rem)
    if result.2 = [] then
      { success := true, merged := joinLines result.1, conflicts := [] }
    else
      { success := false, merged := joinLines result.1, conflicts := result.2 }

/-! ### Strategy-based resolution -/

/-- The literal separator inserted by `ConflictDetector._mergeBoth`. -/
def mergedSeparator : String := "\n\n--- MERGED FROM REMOTE ---\n\n"

/-- `ConflictDetector._mergeBoth(local, remote)`: simple concatenation. -/
def mergeBoth (loc rem : String) : String := loc ++ mergedSeparator ++ rem

/-- `ConflictDetector.autoResolve(conflict, strategy)`; an unrecognized
strategy throws `Unknown resolution strategy: ...`. -/
def autoResolve (c : ConflictInfo) (strategy : String) : Except String String :=
  if strategy = "last-write-wins" then
    .ok (if c.localVersion.timestamp > c.remoteVersion.timestamp then
          c.localVersion.content
        else c.remoteVersion.content)
  else if strategy = "first-write-wins" then
    .ok (if c.localVersion.timestamp < c.remoteVersion.timestamp then
          c.localVersion.content
        else c.remoteVersion.content)
  else if strategy = "local-wins" then
    .ok c.localVersion.content
  else if strategy = "remote-wins" then
    .ok c.remoteVersion.content
  else if strategy = "merge-both" then
    .ok (mergeBoth c.localVersion.content c.remoteVersion.content)
  else
    .error ("Unknown resolution strategy: " ++ strategy)

/-- `ConflictResolver.resolve(conflict, strategy)`: `manual` always throws;
`auto-merge` tries a three-way merge against the common ancestor and falls
back to `last-write-wins` on merge failure or when no ancestor is present;
every other strategy is delegated to `autoResolve`. -/
def resolverResolve (c : ConflictInfo) (strategy : String) :
    Except String String :=
  if strategy = "manual" then
    .error "Manual resolution required. Use resolveManually() instead."
  else if strategy = "auto-merge" then
    match c.commonAncestor with
    | some anc =>
      let result := threeWayMerge anc.content c.localVersion.content
        c.remoteVersion.content
      if result.success then .ok result.merged
      else autoResolve c "last-write-wins"
    | none => autoResolve c "last-write-wins"
  else
    autoResolve c strategy

/-- `ConflictResolver.resolveManually(conflict, resolvedContent)`: rejects a
falsy (absent or empty) content, otherwise returns it unchanged. -/
def resolverResolveManually (content : Option String) : Except String String :=
  if content.getD "" = "" then
    .error "Resolved content is required for manual resolution"
  else
    .ok (content.getD "")

/-! ### The conflict queue -/

/-- An entry of `ConflictResolver.conflictQueue`. -/
structure QueuedConflict where
  conflict : ConflictInfo
  timestamp : Int
  id : String
deriving Repr, DecidableEq

/-- The id string `conflict_${Date.now()}_${randomSuffix}` built by
`enqueueConflict`; `Date.now()` and the `Math.random()`-derived suffix are
explicit inputs. -/
def mkConflictId (now : Int) (randSuffix : String) : String :=
  "conflict_" ++ intToBase 10 now ++ "_" ++ randSuffix

/-- `ConflictResolver.enqueueConflict(conflict)` with the nondeterministic
timestamp and random suffix passed explicitly. -/
def enqueueConflict (queue : List QueuedConflict) (c : ConflictInfo)
    (now : Int) (randSuffix : String) : List QueuedConflict :=
  queue ++ [{ conflict := c, timestamp := now,
              id := mkConflictId now randSuffix }]

/-- `ConflictResolver.removeConflict(conflictId)`: drops every entry whose
id matches. -/
def removeConflict (queue : List QueuedConflict) (conflictId : String) :
    List QueuedConflict :=
  queue.filter fun item => item.id != conflictId

/-- The mutable state of a `ConflictResolver`: its queue and busy flag. -/
structure ResolverState where
  queue : List QueuedConflict
  resolving : Bool
deriving Repr, DecidableEq

/-- One `{id, resolved}` entry of the list returned by `resolveAll`. -/
structure ResolvedPair where
  id : String
  resolved : String
deriving Repr, DecidableEq

/-- The `while` loop of `ConflictResolver.resolveAll`: resolve the head;
on success record `{id, resolved}` and remove that id from the queue, on
failure shift the head off and continue.  Each iteration strictly shortens
the queue, so fuel `length + 1` never runs out. -/
def resolveAllGo (strategy : String) :
    Nat → List QueuedConflict → List ResolvedPair →
    List ResolvedPair × List QueuedConflict
  | _, [], acc => (acc, [])
  | 0, queue, acc => (acc, queue)
  | fuel + 1, item :: rest, acc =>
    match resolverResolve item.conflict strategy with
    | .ok resolved =>
      resolveAllGo strategy fuel (removeConflict (item :: rest) item.id)
        (acc ++ [{ id := item.id, resolved := resolved }])
    | .error _ =>
      resolveAllGo strategy fuel rest acc

/-- `ConflictResolver.resolveAll(strategy)`: fails fast when the busy flag
is set; otherwise drains the queue and clears the flag (the JS `finally`
clears it on every path). -/
def resolveAll (st : ResolverState) (strategy : String) :
    Except String (List ResolvedPair) × ResolverState :=
  if st.resolving then
    (.error "Already resolving conflicts", st)
  else
    let out := resolveAllGo strategy (st.queue.length + 1) st.queue []
    (.ok out.1, { queue := out.2, resolving := false })

/-- The per-item outcome `resolveAll` records for a queue entry: `some`
`{id, resolved}` when `resolve` succeeds on it, `none` when it throws. -/
def resolveOutcome (strategy : String) (item : QueuedConflict) :
    Option ResolvedPair :=
  match resolverResolve item.conflict strategy with
  | .ok resolved => some { id := item.id, resolved := resolved }
  | .error _ => none

/-! ### The conflict manager -/

/-- The raw `{content, version?, timestamp?, deviceId?}` object handed to
`ConflictManager.checkAndHandle`. -/
structure SyncData where
  content : String
  version : Option Int := none
  timestamp : Option Int := none
  deviceId : Option String := none
deriving Repr, DecidableEq

/-- The `VersionedContent` that `checkAndHandle` builds from raw sync data:
`version || 0`, `timestamp || Date.now()`, `deviceId || default`, and a
fresh `hashContent` fingerprint. -/
def toVersioned (d : SyncData) (now : Int) (defaultDevice : String) :
    VersionedContent :=
  { content := d.content
    version := d.version.getD 0
    timestamp := jsOrNum d.timestamp now
    deviceId := jsOrStr d.deviceId defaultDevice
    hash := hashContent d.content }

/-- The `ConflictManager` option fields that `checkAndHandle` consults. -/
structure ManagerConfig where
  conflictWindow : Int := defaultConflictWindow
  autoResolveStrategy : Option String := none
deriving Repr, DecidableEq

/-- The value returned by `checkAndHandle`, together with the resolver
queue after the call. -/
structure CheckOutcome where
  hasConflict : Bool
  resolved : Option String
  conflict : Option ConflictInfo
  queue : List QueuedConflict
deriving Repr, DecidableEq

/-- `ConflictManager.checkAndHandle(localData, remoteData)`. The
`onConflictDetected`/`onConflictResolved` hooks are pure observers and are
not modelled; `Date.now()` and the random id suffix of a potential
`enqueueConflict` are the explicit `now`/`randSuffix` inputs. -/
def checkAndHandle (cfg : ManagerConfig) (queue : List QueuedConflict)
    (localData remoteData : SyncData) (now : Int) (randSuffix : String) :
    CheckOutcome :=
  let lv := toVersioned localData now "local"
  let rv := toVersioned remoteData now "remote"
  match detectConflict cfg.conflictWindow lv rv with
  | none =>
    { hasConflict := false, resolved := some rv.content, conflict := none,
      queue := queue }
  | some c =>
    let tryAuto : Option String :=
      match cfg.autoResolveStrategy with
      | some s =>
        if s ≠ "" ∧ s ≠ "manual" then
          match resolverResolve c s with
          | .ok resolved => some resolved
          | .error _ => none
        else none
      | none => none
    match tryAuto with
    | some resolved =>
      { hasConflict := true, resolved := some resolved, conflict := some c,
        queue := queue }
    | none =>
      { hasConflict := true, resolved := none, conflict := some c,
        queue := enqueueConflict queue c now randSuffix }

instance {ε α : Type} [DecidableEq ε] [DecidableEq α] :
    DecidableEq (Except ε α) := fun x y =>
  match x, y with
  | .ok a, .ok b => decidable_of_iff (a = b) (by simp)
  | .error a, .error b => decidable_of_iff (a = b) (by simp)
  | .ok _, .error _ => .isFalse (by simp)
  | .error _, .ok _ => .isFalse (by simp)

/-- The value returned by `ConflictManager.resolveManually`, the queue it
leaves behind, and whether the `onConflictResolved` callback fired. -/
structure ManualOutcome where
  result : Except String String
  queue : List QueuedConflict
  callbackFired : Bool
deriving Repr, DecidableEq

/-- `ConflictManager.resolveManually(conflictId, resolvedContent)`: look the
item up (throw `Conflict not found` when absent), delegate to the
resolver's manual path (which rejects falsy content), and only on success
fire the callback and remove the item. -/
def managerResolveManually (queue : List QueuedConflict)
    (conflictId : String) (content : Option String) : ManualOutcome :=
  match queue.find? (fun item => item.id == conflictId) with
  | none =>
    { result := .error ("Conflict not found: " ++ conflictId),
      queue := queue, callbackFired := false }
  | some _ =>
    match resolverResolveManually content with
    | .error e =>
      { result := .error e, queue := queue, callbackFired := false }
    | .ok resolved =>
      { result := .ok resolved, queue := removeConflict queue conflictId,
        callbackFired := true }

/-! ### The storage write path for notes -/

/-- The note object passed to `IndexedDBStorage.saveNote`; optional fields
may be absent on the JS object. -/
structure NoteInput where
  id : String
  content : String := ""
  title : String := ""
  version : Option Int := none
  createdAt : Option Int := none
  tags : Option (List String) := none
deriving Repr, DecidableEq

/-- The record that `saveNote` puts into the `notes` object store. -/
structure StoredNote where
  id : String
  notebookId : String
  content : String
  title : String
  updatedAt : Int
  createdAt : Int
  version : Int
  tags : List String
deriving Repr, DecidableEq

/-- `IndexedDBStorage.saveNote(notebookId, note)` with `Date.now()` passed
explicitly: validates the ids, then stores the note with `updatedAt = now`,
`createdAt` defaulted, `version` bumped by one (missing version read as 0)
and the `notebookId` of the call. -/
def saveNote (notebookId : String) (note : NoteInput) (now : Int) :
    Except String StoredNote :=
  if note.id = "" ∨ notebookId = "" then
    .error "Invalid note data: id and notebookId are required"
  else
    .ok { id := note.id
          notebookId := notebookId
          content := note.content
          title := note.title
          updatedAt := now
          createdAt := jsOrNum note.createdAt now
          version := note.version.getD 0 + 1
          tags := note.tags.getD [] }

/-! ### Concrete fixtures used by the witnesses -/

/-- Local side of the spec's strategy example: ts 1000, content `"A"`. -/
def exLocalV : VersionedContent :=
  { content := "A", version := 1, timestamp := 1000, deviceId := "device-1",
    hash := hashContent ("A") }

/-- Remote side of the spec's strategy example: ts 2000, content `"B"`. -/
def exRemoteV : VersionedContent :=
  { content := "B", version := 1, timestamp := 2000, deviceId := "device-2",
    hash := hashContent ("B") }

/-- A concurrent-edit conflict between `exLocalV` and `exRemoteV`, with no
common ancestor. -/
def exConcurrent : ConflictInfo :=
  { type := .concurrent_edit, localVersion := exLocalV,
    remoteVersion := exRemoteV }

/-- A conflict carrying a common ancestor whose three-way merge succeeds
(the local side is unchanged from the ancestor). -/
def exConflictAnc : ConflictInfo :=
  { type := .concurrent_edit
    localVersion :=
      { content := "Hello", version := 2, timestamp := 1000,
        deviceId := "device-1", hash := hashContent ("Hello") }
    remoteVersion :=
      { content := "Hello Universe", version := 2, timestamp := 2000,
        deviceId := "device-2", hash := hashContent ("Hello Universe") }
    commonAncestor := some
      { content := "Hello", version := 1, timestamp := 500,
        deviceId := "device-1", hash := hashContent ("Hello") } }

/-- Raw local sync data for the manager example. -/
def exLd : SyncData :=
  { content := "A", version := some 1, timestamp := some 1000,
    deviceId := some ("device-1") }

/-- Raw remote sync data for the manager example. -/
def exRd : SyncData :=
  { content := "B", version := some 1, timestamp := some 2000,
    deviceId := some ("device-2") }

/-- The conflict `checkAndHandle` detects between `exLd` and `exRd`. -/
def exC2Conflict : ConflictInfo :=
  { type := .concurrent_edit
    localVersion := toVersioned exLd 3000 ("local")
    remoteVersion := toVersioned exRd 3000 ("remote") }

/-- A queued conflict used by the manual-resolution example. -/
def exItemQa : QueuedConflict :=
  { conflict := exConcurrent, timestamp := 10, id := "qa" }

/-- A two-element resolver queue used by the batch example. -/
def exResolverSt : ResolverState :=
  { queue := [{ conflict := exConcurrent, timestamp := 10, id := "qa" },
              { conflict := exConflictAnc, timestamp := 11, id := "qb" }]
    resolving := false }

/-- The decimal digit list of `n`, as the template literal `${n}` renders a
natural number (empty for 0; `natToBase` special-cases 0 to `"0"`). -/
def decDigits (n : Nat) : List Char := natBaseAux 10 (n + 1) n []

/-! ### Claim C1 -/

/-- Claim C1: `detectConflict(local, remote)` follows the ordered decision
list — no conflict when the hashes or contents agree; otherwise
`concurrent_edit` on a version tie; otherwise `concurrent_edit` when the
timestamps are closer than the conflict window; otherwise
`offline_divergence` when the local version is behind and the hashes differ;
otherwise no conflict — and `detectConflict(v, v)` is always none. -/
theorem detectConflict_decision_list (w : Int) (l r v : VersionedContent) :
    (l.hash = r.hash ∨ l.content = r.content → detectConflict w l r = none) ∧
    (¬(l.hash = r.hash ∨ l.content = r.content) → l.version = r.version →
      detectConflict w l r =
        some { type := .concurrent_edit, localVersion := l, remoteVersion := r }) ∧
    (¬(l.hash = r.hash ∨ l.content = r.content) → l.version ≠ r.version →
      |l.timestamp - r.timestamp| < w →
      detectConflict w l r =
        some { type := .concurrent_edit, localVersion := l, remoteVersion := r }) ∧
    (¬(l.hash = r.hash ∨ l.content = r.content) → l.version ≠ r.version →
      ¬(|l.timestamp - r.timestamp| < w) → l.version < r.version →
      detectConflict w l r =
        some { type := .offline_divergence, localVersion := l, remoteVersion := r }) ∧
    (¬(l.hash = r.hash ∨ l.content = r.content) → l.version ≠ r.version →
      ¬(|l.timestamp - r.timestamp| < w) → ¬(l.version < r.version) →
      detectConflict w l r = none) ∧
    detectConflict w v v = none := by
  refine ⟨?_, ?_, ?_, ?_, ?_, ?_⟩
  · intro h; simp [detectConflict, h]
  · intro h hv; have hh : l.hash ≠ r.hash := fun e => h (Or.inl e)
    simp [detectConflict, h, hv]
  · intro h hv ht
    simp [detectConflict, h, hv, ht]
  · intro h hv ht hlt
    have hh : l.hash ≠ r.hash := fun e => h (Or.inl e)
    have hc : l.content ≠ r.content := fun e => h (Or.inr e)
    simp [detectConflict, h, hv, ht, hlt, hh, hc]
  · intro h hv ht hlt
    simp [detectConflict, h, hv, ht, hlt]
  · simp [detectConflict]

/-- Concrete instantiation of the C1 decision list: a version tie with
different content is classified `concurrent_edit`, and reflexivity holds. -/
theorem detectConflict_decision_list_witness :
    detectConflict 5000
        { content := "A", version := 1, timestamp := 1000,
          deviceId := "d1", hash := "h1" }
        { content := "B", version := 1, timestamp := 2000,
          deviceId := "d2", hash := "h2" } =
      some { type := .concurrent_edit,
             localVersion :=
               { content := "A", version := 1, timestamp := 1000,
                 deviceId := "d1", hash := "h1" },
             remoteVersion :=
               { content := "B", version := 1, timestamp := 2000,
                 deviceId := "d2", hash := "h2" } } ∧
    detectConflict 5000
        { content := "A", version := 7, timestamp := 9, deviceId := "d",
          hash := "h" }
        { content := "A", version := 7, timestamp := 9, deviceId := "d",
          hash := "h" } = none := by
  constructor
  · exact (detectConflict_decision_list 5000
      { content := "A", version := 1, timestamp := 1000, deviceId := "d1",
        hash := "h1" }
      { content := "B", version := 1, timestamp := 2000, deviceId := "d2",
        hash := "h2" }
      { content := "A", version := 1, timestamp := 1000, deviceId := "d1",
        hash := "h1" }).2.1 (by decide) (by decide)
  · exact (detectConflict_decision_list 5000
      { content := "A", version := 7, timestamp := 9, deviceId := "d",
        hash := "h" }
      { content := "A", version := 7, timestamp := 9, deviceId := "d",
        hash := "h" }
      { content := "A", version := 7, timestamp := 9, deviceId := "d",
        hash := "h" }).2.2.2.2.2

/-! ### Claim C5 -/

/-- Claim C5: the `threeWayMerge` fast paths — `local == remote` gives
`merged == local`; otherwise `base == local` gives `merged == remote`;
otherwise `base == remote` gives `merged == local`; all successful.  In
particular `threeWayMerge(x, x, x)` succeeds with `merged == x`. -/
theorem threeWayMerge_fast_paths (base loc rem x : String) :
    (loc = rem →
      threeWayMerge base loc rem =
        { success := true, merged := loc, conflicts := [] }) ∧
    (loc ≠ rem → base = loc →
      threeWayMerge base loc rem =
        { success := true, merged := rem, conflicts := [] }) ∧
    (loc ≠ rem → base ≠ loc → base = rem →
      threeWayMerge base loc rem =
        { success := true, merged := loc, conflicts := [] }) ∧
    threeWayMerge x x x = { success := true, merged := x, conflicts := [] } := by
  refine ⟨?_, ?_, ?_, ?_⟩
  · intro h; simp [threeWayMerge, h]
  · intro h hb; simp [threeWayMerge, h, hb]
  · intro h hb hr; simp [threeWayMerge, h, hb, hr]
  · simp [threeWayMerge]

/-- Concrete instantiation of the C5 fast paths. -/
theorem threeWayMerge_fast_paths_witness :
    threeWayMerge "base" "base" "other" =
      { success := true, merged := "other", conflicts := [] } ∧
    threeWayMerge "base" "edited" "base" =
      { success := true, merged := "edited", conflicts := [] } ∧
    threeWayMerge "x\ny" "x\ny" "x\ny" =
      { success := true, merged := "x\ny", conflicts := [] } := by
  refine ⟨?_, ?_, ?_⟩
  · exact (threeWayMerge_fast_paths "base" "base" "other" "q").2.1
      (by decide) (by decide)
  · exact (threeWayMerge_fast_paths "base" "edited" "base" "q").2.2.1
      (by decide) (by decide) (by decide)
  · exact (threeWayMerge_fast_paths "a" "b" "c" "x\ny").2.2.2

/-! ### Substring helpers for the merge markers -/

theorem startsWithL_append (xs ys : List Char) :
    startsWithL xs (xs ++ ys) = true := by
  induction xs with
  | nil => rfl
  | cons a as ih => simp [startsWithL, ih]

theorem hasSeg_of_startsWithL {pat l : List Char}
    (h : startsWithL pat l = true) : hasSeg pat l = true := by
  cases l with
  | nil => simpa [hasSeg] using h
  | cons c cs => simp [hasSeg, h]

theorem hasSeg_append_left (xs : List Char) {pat ys : List Char}
    (h : hasSeg pat ys = true) : hasSeg pat (xs ++ ys) = true := by
  induction xs with
  | nil => simpa using h
  | cons a as ih => simp [hasSeg, ih]

theorem containsStr_joinLines {x : String} :
    ∀ {L : List String}, x ∈ L → containsStr (joinLines L) x = true := by
  intro L
  induction L with
  | nil => intro h; cases h
  | cons a rest ih =>
    intro h
    cases rest with
    | nil =>
      have hx : x = a := by simpa using h
      subst hx
      have := startsWithL_append x.data []
      rw [List.append_nil] at this
      exact hasSeg_of_startsWithL this
    | cons b bs =>
      have hjoin : joinLines (a :: b :: bs) = a ++ "\n" ++ joinLines (b :: bs) :=
        rfl
      rcases List.mem_cons.mp h with hx | hx
      · subst hx
        unfold containsStr
        rw [hjoin]
        have hdata : (x ++ "\n" ++ joinLines (b :: bs)).data =
            x.data ++ (('\n' :: (joinLines (b :: bs)).data)) := by
          simp [String.data_append]
        rw [hdata]
        exact hasSeg_of_startsWithL (startsWithL_append x.data _)
      · have hrec := ih hx
        unfold containsStr at hrec ⊢
        rw [hjoin]
        have hdata : (a ++ "\n" ++ joinLines (b :: bs)).data =
            (a.data ++ ['\n']) ++ (joinLines (b :: bs)).data := by
          simp [String.data_append]
        rw [hdata]
        exact hasSeg_append_left _ hrec

/-! ### The merge-loop invariant behind claim C4 -/

theorem mergeLinesF_inv (fuel : Nat) :
    ∀ (b l r acc : List String) (cacc : List ConflictRegion),
    (∀ x ∈ acc, x ∈ (mergeLinesF fuel b l r acc cacc).1) ∧
    cacc.length ≤ (mergeLinesF fuel b l r acc cacc).2.length ∧
    (cacc.length < (mergeLinesF fuel b l r acc cacc).2.length →
      localMarker ∈ (mergeLinesF fuel b l r acc cacc).1 ∧
      remoteMarker ∈ (mergeLinesF fuel b l r acc cacc).1) := by
  induction fuel with
  | zero =>
    intro b l r acc cacc
    refine ⟨fun x hx => ?_, le_refl _, fun hlt => ?_⟩
    · simpa [mergeLinesF] using hx
    · simp [mergeLinesF] at hlt
  | succ fuel ih =>
    intro b l r acc cacc
    by_cases h0 : b = [] ∧ l = [] ∧ r = []
    · refine ⟨fun x hx => ?_, ?_, fun hlt => ?_⟩
      · simpa [mergeLinesF, h0] using hx
      · simp [mergeLinesF, h0]
      · simp [mergeLinesF, h0] at hlt
    · by_cases h1 : b.headD "" = l.headD "" ∧ b.headD "" = r.headD ""
      · have heq : mergeLinesF (fuel + 1) b l r acc cacc =
            mergeLinesF fuel b.tail l.tail r.tail (acc ++ [b.headD ""]) cacc := by
          simp only [mergeLinesF]
          rw [if_neg h0, if_pos h1]
        obtain ⟨ihm, ihl, ihk⟩ := ih b.tail l.tail r.tail (acc ++ [b.headD ""]) cacc
        rw [heq]
        exact ⟨fun x hx => ihm x (List.mem_append_left _ hx), ihl, ihk⟩
      · by_cases h2 : b.headD "" = l.headD "" ∧ b.headD "" ≠ r.headD ""
        · have heq : mergeLinesF (fuel + 1) b l r acc cacc =
              mergeLinesF fuel b.tail l.tail r.tail (acc ++ [r.headD ""]) cacc := by
            simp only [mergeLinesF]
            rw [if_neg h0, if_neg h1, if_pos h2]
          obtain ⟨ihm, ihl, ihk⟩ := ih b.tail l.tail r.tail (acc ++ [r.headD ""]) cacc
          rw [heq]
          exact ⟨fun x hx => ihm x (List.mem_append_left _ hx), ihl, ihk⟩
        · by_cases h3 : b.headD "" = r.headD "" ∧ b.headD "" ≠ l.headD ""
          · have heq : mergeLinesF (fuel + 1) b l r acc cacc =
                mergeLinesF fuel b.tail l.tail r.tail (acc ++ [l.headD ""]) cacc := by
              simp only [mergeLinesF]
              rw [if_neg h0, if_neg h1, if_neg h2, if_pos h3]
            obtain ⟨ihm, ihl, ihk⟩ := ih b.tail l.tail r.tail (acc ++ [l.headD ""]) cacc
            rw [heq]
            exact ⟨fun x hx => ihm x (List.mem_append_left _ hx), ihl, ihk⟩
          · set bl := b.headD "" with hbl
            set hunk := localMarker ::
              ((l.takeWhile fun s => s != bl) ++
                sepMarker :: ((r.takeWhile fun s => s != bl) ++ [remoteMarker]))
              with hhunk
            set region : ConflictRegion :=
              { startLine := acc.length
                endLine := acc.length + hunk.length - 1
                localContent := joinLines (l.takeWhile fun s => s != bl)
                remoteContent := joinLines (r.takeWhile fun s => s != bl) }
              with hregion
            have heq : mergeLinesF (fuel + 1) b l r acc cacc =
                mergeLinesF fuel b.tail (l.dropWhile fun s => s != bl)
                  (r.dropWhile fun s => s != bl) (acc ++ hunk)
                  (cacc ++ [region]) := by
              simp only [mergeLinesF]
              rw [if_neg h0, if_neg h1, if_neg h2, if_neg h3]
            obtain ⟨ihm, ihl, ihk⟩ := ih b.tail (l.dropWhile fun s => s != bl)
              (r.dropWhile fun s => s != bl) (acc ++ hunk) (cacc ++ [region])
            rw [heq]
            refine ⟨fun x hx => ihm x (List.mem_append_left _ hx), ?_, fun _ => ?_⟩
            · calc cacc.length ≤ (cacc ++ [region]).length := by simp
                _ ≤ _ := ihl
            · constructor
              · exact ihm localMarker (List.mem_append_right _ (by simp [hhunk]))
              · exact ihm remoteMarker (List.mem_append_right _ (by simp [hhunk]))

/-! ### The fuel of `mergeLinesF` is semantically inert -/

theorem dropWhileString_length_le (p : String → Bool) (l : List String) :
    (l.dropWhile p).length ≤ l.length :=
  (List.dropWhile_sublist p).length_le

theorem mergeLines_tail_sum_lt {b l r : List String}
    (h : ¬(b = [] ∧ l = [] ∧ r = [])) :
    b.tail.length + l.tail.length + r.tail.length <
      b.length + l.length + r.length := by
  have hne : b.length ≠ 0 ∨ l.length ≠ 0 ∨ r.length ≠ 0 := by
    by_contra hc
    push_neg at hc
    exact h ⟨List.length_eq_zero.mp hc.1, List.length_eq_zero.mp hc.2.1,
      List.length_eq_zero.mp hc.2.2⟩
  simp only [List.length_tail]
  omega

theorem mergeLines_conflict_sum_lt {b l r : List String}
    (hl : b.headD "" ≠ l.headD "") (hr : b.headD "" ≠ r.headD "") :
    b.tail.length + (l.dropWhile fun s => s != b.headD "").length +
      (r.dropWhile fun s => s != b.headD "").length <
      b.length + l.length + r.length := by
  by_cases hb : b = []
  · subst hb
    cases l with
    | nil => exact absurd rfl hl
    | cons a t =>
      cases r with
      | nil => exact absurd rfl hr
      | cons a2 t2 =>
        have ha : a ≠ "" := fun e => hl (by simp [e])
        have ha2 : a2 ≠ "" := fun e => hr (by simp [e])
        simp only [List.headD_nil]
        have hstep : List.dropWhile (fun s => s != "") (a :: t) =
            List.dropWhile (fun s => s != "") t :=
          List.dropWhile_cons_of_pos (bne_iff_ne.mpr ha)
        have hstep2 : List.dropWhile (fun s => s != "") (a2 :: t2) =
            List.dropWhile (fun s => s != "") t2 :=
          List.dropWhile_cons_of_pos (bne_iff_ne.mpr ha2)
        rw [hstep, hstep2]
        have d1 := dropWhileString_length_le (fun s => s != "") t
        have d2 := dropWhileString_length_le (fun s => s != "") t2
        simp only [List.tail_nil, List.length_nil, List.length_cons]
        omega
  · have hbt : b.tail.length < b.length := by
      cases b with
      | nil => exact absurd rfl hb
      | cons x xs => simp
    have d1 := dropWhileString_length_le (fun s => s != b.headD "") l
    have d2 := dropWhileString_length_le (fun s => s != b.headD "") r
    omega

theorem mergeLinesF_fuel :
    ∀ (f1 f2 : Nat) (b l r acc : List String) (cacc : List ConflictRegion),
      b.length + l.length + r.length < f1 →
      b.length + l.length + r.length < f2 →
      mergeLinesF f1 b l r acc cacc = mergeLinesF f2 b l r acc cacc := by
  intro f1
  induction f1 with
  | zero => intro f2 b l r acc cacc h1 _; omega
  | succ f1 ih =>
    intro f2 b l r acc cacc h1 h2
    obtain ⟨g2, rfl⟩ : ∃ g, f2 = g + 1 := ⟨f2 - 1, by omega⟩
    by_cases h0 : b = [] ∧ l = [] ∧ r = []
    · simp [mergeLinesF, h0]
    · by_cases hc1 : b.headD "" = l.headD "" ∧ b.headD "" = r.headD ""
      · have hstep : ∀ g : Nat, mergeLinesF (g + 1) b l r acc cacc =
            mergeLinesF g b.tail l.tail r.tail (acc ++ [b.headD ""]) cacc := by
          intro g
          simp only [mergeLinesF]
          rw [if_neg h0, if_pos hc1]
        have hlt := mergeLines_tail_sum_lt h0
        rw [hstep f1, hstep g2]
        exact ih g2 _ _ _ _ _ (by omega) (by omega)
      · by_cases hc2 : b.headD "" = l.headD "" ∧ b.headD "" ≠ r.headD ""
        · have hstep : ∀ g : Nat, mergeLinesF (g + 1) b l r acc cacc =
              mergeLinesF g b.tail l.tail r.tail (acc ++ [r.headD ""]) cacc := by
            intro g
            simp only [mergeLinesF]
            rw [if_neg h0, if_neg hc1, if_pos hc2]
          have hlt := mergeLines_tail_sum_lt h0
          rw [hstep f1, hstep g2]
          exact ih g2 _ _ _ _ _ (by omega) (by omega)
        · by_cases hc3 : b.headD "" = r.headD "" ∧ b.headD "" ≠ l.headD ""
          · have hstep : ∀ g : Nat, mergeLinesF (g + 1) b l r acc cacc =
                mergeLinesF g b.tail l.tail r.tail (acc ++ [l.headD ""]) cacc := by
              intro g
              simp only [mergeLinesF]
              rw [if_neg h0, if_neg hc1, if_neg hc2, if_pos hc3]
            have hlt := mergeLines_tail_sum_lt h0
            rw [hstep f1, hstep g2]
            exact ih g2 _ _ _ _ _ (by omega) (by omega)
          · have hl : b.headD "" ≠ l.headD "" := by tauto
            have hr : b.headD "" ≠ r.headD "" := by tauto
            have hstep : ∀ g : Nat, mergeLinesF (g + 1) b l r acc cacc =
                mergeLinesF g b.tail
                  (l.dropWhile fun s => s != b.headD "")
                  (r.dropWhile fun s => s != b.headD "")
                  (acc ++ (localMarker ::
                    ((l.takeWhile fun s => s != b.headD "") ++ sepMarker ::
                      ((r.takeWhile fun s => s != b.headD "") ++
                        [remoteMarker]))))
                  (cacc ++ [{ startLine := acc.length
                              endLine := acc.length + (localMarker ::
                                ((l.takeWhile fun s => s != b.headD "") ++
                                  sepMarker ::
                                  ((r.takeWhile fun s => s != b.headD "") ++
                                    [remoteMarker]))).length - 1
                              localContent :=
                                joinLines (l.takeWhile fun s => s != b.headD "")
                              remoteContent :=
                                joinLines
                                  (r.takeWhile fun s => s != b.headD "") }]) := by
              intro g
              simp only [mergeLinesF]
              rw [if_neg h0, if_neg hc1, if_neg hc2, if_neg hc3]
            have hlt := mergeLines_conflict_sum_lt hl hr
            rw [hstep f1, hstep g2]
            exact ih g2 _ _ _ _ _ (by omega) (by omega)

/-! ### Claim C4 -/

/-- Claim C4: `threeWayMerge` fails exactly when the line scan recorded at
least one `ConflictRegion`; on failure the merged text contains both the
`<<<<<<< LOCAL` and `>>>>>>> REMOTE` markers and the conflict list is
non-empty. -/
theorem threeWayMerge_conflict_failure (base loc rem : String) :
    ((threeWayMerge base loc rem).success = false ↔
      (threeWayMerge base loc rem).conflicts ≠ []) ∧
    ((threeWayMerge base loc rem).success = false →
      containsStr (threeWayMerge base loc rem).merged localMarker = true ∧
      containsStr (threeWayMerge base loc rem).merged remoteMarker = true ∧
      (threeWayMerge base loc rem).conflicts ≠ []) := by
  unfold threeWayMerge
  split_ifs with hlr hbl hbr
  · simp
  · simp
  · simp
  by_cases hempty : (mergeLines (jsLines base) (jsLines loc) (jsLines rem)).2 = []
  · rw [if_pos hempty]
    simp
  · rw [if_neg hempty]
    have hpos : 0 < (mergeLines (jsLines base) (jsLines loc) (jsLines rem)).2.length :=
      List.length_pos.mpr hempty
    obtain ⟨-, -, hmark⟩ := mergeLinesF_inv
      ((jsLines base).length + (jsLines loc).length + (jsLines rem).length + 1)
      (jsLines base) (jsLines loc) (jsLines rem) [] []
    have hmarks := hmark (by simpa [mergeLines] using hpos)
    refine ⟨by simpa using hempty, fun _ => ⟨?_, ?_, by simpa using hempty⟩⟩
    · exact containsStr_joinLines (by simpa [mergeLines] using hmarks.1)
    · exact containsStr_joinLines (by simpa [mergeLines] using hmarks.2)

/-- Concrete instantiation of C4: base `"Hello"`, local `"Hello World"`,
remote `"Hello Universe"` fails with a recorded region and both markers. -/
theorem threeWayMerge_conflict_failure_witness :
    (threeWayMerge "Hello" "Hello World" "Hello Universe").success = false ∧
    containsStr (threeWayMerge "Hello" "Hello World" "Hello Universe").merged
      localMarker = true ∧
    containsStr (threeWayMerge "Hello" "Hello World" "Hello Universe").merged
      remoteMarker = true ∧
    (threeWayMerge "Hello" "Hello World" "Hello Universe").conflicts ≠ [] :=
  ⟨by decide,
   (threeWayMerge_conflict_failure "Hello" "Hello World" "Hello Universe").2
     (by decide)⟩

/-! ### Claim C3 -/

/-- Claim C3: `autoResolve` returns the later writer's content for
`last-write-wins`, the earlier writer's for `first-write-wins`, the fixed
side for `local-wins`/`remote-wins`, the concatenation with the literal
separator for `merge-both`, and fails with an UnknownStrategy error on any
other strategy value. -/
theorem autoResolve_strategies (c : ConflictInfo) (s : String) :
    autoResolve c ("last-write-wins") =
      .ok (if c.localVersion.timestamp > c.remoteVersion.timestamp then
            c.localVersion.content
          else c.remoteVersion.content) ∧
    autoResolve c ("first-write-wins") =
      .ok (if c.localVersion.timestamp < c.remoteVersion.timestamp then
            c.localVersion.content
          else c.remoteVersion.content) ∧
    autoResolve c ("local-wins") = .ok c.localVersion.content ∧
    autoResolve c ("remote-wins") = .ok c.remoteVersion.content ∧
    autoResolve c ("merge-both") =
      .ok (c.localVersion.content ++ mergedSeparator ++
        c.remoteVersion.content) ∧
    (s ≠ "last-write-wins" → s ≠ "first-write-wins" → s ≠ "local-wins" →
      s ≠ "remote-wins" → s ≠ "merge-both" →
      autoResolve c s = .error ("Unknown resolution strategy: " ++ s)) := by
  refine ⟨rfl, by simp [autoResolve], by simp [autoResolve],
    by simp [autoResolve], by simp [autoResolve, mergeBoth], ?_⟩
  intro h1 h2 h3 h4 h5
  simp [autoResolve, h1, h2, h3, h4, h5]

/-- Concrete instantiation of C3: the spec's ts 1000/`"A"` vs ts 2000/`"B"`
example, plus an unknown strategy. -/
theorem autoResolve_strategies_witness :
    autoResolve exConcurrent ("last-write-wins") = .ok ("B") ∧
    autoResolve exConcurrent ("first-write-wins") = .ok ("A") ∧
    autoResolve exConcurrent ("local-wins") = .ok ("A") ∧
    autoResolve exConcurrent ("remote-wins") = .ok ("B") ∧
    containsStr (mergeBoth ("A") ("B")) ("A") = true ∧
    containsStr (mergeBoth ("A") ("B")) ("B") = true ∧
    autoResolve exConcurrent ("definitely-not-a-strategy") =
      .error ("Unknown resolution strategy: definitely-not-a-strategy") := by
  refine ⟨by decide, by decide, by decide, by decide, by decide, by decide, ?_⟩
  exact (autoResolve_strategies exConcurrent
    ("definitely-not-a-strategy")).2.2.2.2.2 (by decide) (by decide)
    (by decide) (by decide) (by decide)

/-! ### Claim C6 -/

/-- Claim C6: with strategy `auto-merge`, `resolve` merges against the
common ancestor when one is present and returns the merged text on
success; on merge failure, or when no ancestor is present, it returns
`autoResolve(conflict, 'last-write-wins')`; it always returns plain
content, never the merge's conflict regions or an error. -/
theorem resolverResolve_autoMerge (c : ConflictInfo) :
    (∀ anc, c.commonAncestor = some anc →
      ((threeWayMerge anc.content c.localVersion.content
          c.remoteVersion.content).success = true →
        resolverResolve c ("auto-merge") =
          .ok (threeWayMerge anc.content c.localVersion.content
            c.remoteVersion.content).merged) ∧
      ((threeWayMerge anc.content c.localVersion.content
          c.remoteVersion.content).success = false →
        resolverResolve c ("auto-merge") =
          autoResolve c ("last-write-wins"))) ∧
    (c.commonAncestor = none →
      resolverResolve c ("auto-merge") = autoResolve c ("last-write-wins")) ∧
    (∃ s, resolverResolve c ("auto-merge") = .ok s) := by
  refine ⟨?_, ?_, ?_⟩
  · intro anc hanc
    constructor
    · intro hs; simp [resolverResolve, hanc, hs]
    · intro hs; simp [resolverResolve, hanc, hs]
  · intro hnone
    simp [resolverResolve, hnone]
  · rcases hca : c.commonAncestor with _ | anc
    · exact ⟨if c.localVersion.timestamp > c.remoteVersion.timestamp then
          c.localVersion.content else c.remoteVersion.content,
        by simp [resolverResolve, hca, autoResolve]⟩
    · by_cases hs : (threeWayMerge anc.content c.localVersion.content
        c.remoteVersion.content).success = true
      · exact ⟨(threeWayMerge anc.content c.localVersion.content
          c.remoteVersion.content).merged, by simp [resolverResolve, hca, hs]⟩
      · refine ⟨if c.localVersion.timestamp > c.remoteVersion.timestamp then
            c.localVersion.content else c.remoteVersion.content, ?_⟩
        simp only [Bool.not_eq_true] at hs
        simp [resolverResolve, hca, hs, autoResolve]

/-- Concrete instantiation of C6: with an ancestor the successful merge's
text is returned; without one, `last-write-wins` decides. -/
theorem resolverResolve_autoMerge_witness :
    resolverResolve exConflictAnc ("auto-merge") = .ok ("Hello Universe") ∧
    resolverResolve exConcurrent ("auto-merge") = .ok ("B") := by
  constructor
  · have h := (resolverResolve_autoMerge exConflictAnc).1
      { content := "Hello", version := 1, timestamp := 500,
        deviceId := "device-1", hash := hashContent ("Hello") } rfl
    rw [h.1 (by decide)]
    decide
  · rw [(resolverResolve_autoMerge exConcurrent).2.1 rfl]
    decide

/-! ### Claim C2 -/

/-- Claim C2: `checkAndHandle` returns
`{hasConflict: false, resolved: remote.content, conflict: null}` with the
queue untouched when the detector finds no conflict; when a conflict is
found and no auto-resolve strategy other than `manual` is configured (or
the configured attempt fails), the conflict is appended to the resolver
queue and `{hasConflict: true, resolved: null, conflict}` is returned. -/
theorem checkAndHandle_spec (cfg : ManagerConfig)
    (queue : List QueuedConflict) (ld rd : SyncData) (now : Int)
    (randSuffix : String) :
    (detectConflict cfg.conflictWindow (toVersioned ld now ("local"))
        (toVersioned rd now ("remote")) = none →
      checkAndHandle cfg queue ld rd now randSuffix =
        { hasConflict := false, resolved := some rd.content,
          conflict := none, queue := queue }) ∧
    (∀ c, detectConflict cfg.conflictWindow (toVersioned ld now ("local"))
        (toVersioned rd now ("remote")) = some c →
      (∀ s, cfg.autoResolveStrategy = some s → s ≠ "" → s ≠ "manual" →
        ∃ e, resolverResolve c s = .error e) →
      checkAndHandle cfg queue ld rd now randSuffix =
        { hasConflict := true, resolved := none, conflict := some c,
          queue := enqueueConflict queue c now randSuffix }) := by
  constructor
  · intro h
    simp only [checkAndHandle]
    rw [h]
    rfl
  · intro c hc hfail
    simp only [checkAndHandle]
    rw [hc]
    rcases hars : cfg.autoResolveStrategy with _ | s
    · simp [hars]
    · by_cases hs1 : s = ""
      · simp [hars, hs1]
      · by_cases hs2 : s = "manual"
        · simp [hars, hs2]
        · obtain ⟨e, he⟩ := hfail s hars hs1 hs2
          simp [hars, hs1, hs2, he]

/-- Concrete instantiation of C2: with no auto-resolve strategy configured,
a detected concurrent edit is enqueued and signalled to the caller. -/
theorem checkAndHandle_spec_witness :
    checkAndHandle { conflictWindow := 5000, autoResolveStrategy := none }
        [] exLd exRd 3000 "r1" =
      { hasConflict := true, resolved := none, conflict := some exC2Conflict,
        queue := enqueueConflict [] exC2Conflict 3000 "r1" } ∧
    checkAndHandle { conflictWindow := 5000, autoResolveStrategy := none }
        [] exLd exLd 3000 "r1" =
      { hasConflict := false, resolved := some ("A"), conflict := none,
        queue := [] } := by
  constructor
  · exact (checkAndHandle_spec
      { conflictWindow := 5000, autoResolveStrategy := none } [] exLd exRd
      3000 "r1").2 exC2Conflict (by decide)
      (fun s hs => by simp at hs)
  · exact (checkAndHandle_spec
      { conflictWindow := 5000, autoResolveStrategy := none } [] exLd exLd
      3000 "r1").1 (by decide)

/-! ### Claim C7 -/

theorem removeConflict_cons_self (item : QueuedConflict)
    (rest : List QueuedConflict) :
    removeConflict (item :: rest) item.id = removeConflict rest item.id := by
  simp [removeConflict]

theorem resolveAllGo_queue_empty (strategy : String) :
    ∀ (fuel : Nat) (q : List QueuedConflict) (acc : List ResolvedPair),
      q.length < fuel → (resolveAllGo strategy fuel q acc).2 = [] := by
  intro fuel
  induction fuel with
  | zero => intro q acc h; omega
  | succ fuel ih =>
    intro q acc h
    match q with
    | [] => rfl
    | item :: rest =>
      rcases hres : resolverResolve item.conflict strategy with e | r
      · simpa [resolveAllGo, hres] using
          ih rest acc (by simpa using Nat.lt_of_succ_lt_succ h)
      · have hlen : (removeConflict (item :: rest) item.id).length < fuel := by
          rw [removeConflict_cons_self]
          calc (removeConflict rest item.id).length
              ≤ rest.length := List.length_filter_le _ rest
            _ < fuel := by simpa using Nat.lt_of_succ_lt_succ h
        simpa [resolveAllGo, hres] using
          ih (removeConflict (item :: rest) item.id)
            (acc ++ [{ id := item.id, resolved := r }]) hlen

theorem resolveAllGo_results (strategy : String) :
    ∀ (fuel : Nat) (q : List QueuedConflict) (acc : List ResolvedPair),
      q.length < fuel → (q.map QueuedConflict.id).Nodup →
      (resolveAllGo strategy fuel q acc).1 =
        acc ++ q.filterMap (resolveOutcome strategy) := by
  intro fuel
  induction fuel with
  | zero => intro q acc h; omega
  | succ fuel ih =>
    intro q acc h hnd
    match q with
    | [] => simp [resolveAllGo]
    | item :: rest =>
      have hsplit : (∀ x ∈ rest, ¬x.id = item.id) ∧
          (rest.map QueuedConflict.id).Nodup := by simpa using hnd
      obtain ⟨hnotin, hndrest⟩ := hsplit
      have hlen : rest.length < fuel := by
        have := h
        simp only [List.length_cons] at this
        omega
      rcases hres : resolverResolve item.conflict strategy with e | r
      · have hout : resolveOutcome strategy item = none := by
          simp [resolveOutcome, hres]
        rw [show resolveAllGo strategy (fuel + 1) (item :: rest) acc =
            resolveAllGo strategy fuel rest acc by simp [resolveAllGo, hres]]
        rw [ih rest acc hlen hndrest]
        simp [List.filterMap_cons, hout]
      · have hout : resolveOutcome strategy item =
            some { id := item.id, resolved := r } := by
          simp [resolveOutcome, hres]
        have hrm : removeConflict (item :: rest) item.id = rest := by
          rw [removeConflict_cons_self]
          refine List.filter_eq_self.mpr fun a ha => ?_
          simpa using hnotin a ha
        rw [show resolveAllGo strategy (fuel + 1) (item :: rest) acc =
            resolveAllGo strategy fuel (removeConflict (item :: rest) item.id)
              (acc ++ [{ id := item.id, resolved := r }]) by
          simp [resolveAllGo, hres]]
        have hih := ih rest
          (acc ++ [({ id := item.id, resolved := r } : ResolvedPair)])
          hlen hndrest
        rw [hrm, hih]
        simp [List.filterMap_cons, hout]

/-- Claim C7: `resolveAll` fails with AlreadyResolving while a batch is in
flight; otherwise it drains the queue head-to-tail — per-item failures are
caught and the item dropped — leaving an empty queue and a cleared busy
flag, and returns exactly the `{id, resolved}` pairs of the items whose
resolution succeeded, in queue order. -/
theorem resolveAll_spec (st : ResolverState) (strategy : String) :
    (st.resolving = true →
      resolveAll st strategy = (.error ("Already resolving conflicts"), st)) ∧
    (st.resolving = false →
      (resolveAll st strategy).2 = { queue := [], resolving := false } ∧
      ((st.queue.map QueuedConflict.id).Nodup →
        (resolveAll st strategy).1 =
          .ok (st.queue.filterMap (resolveOutcome strategy)))) := by
  constructor
  · intro h
    simp [resolveAll, h]
  · intro h
    constructor
    · simp only [resolveAll, h, Bool.false_eq_true, if_false]
      rw [resolveAllGo_queue_empty strategy (st.queue.length + 1) st.queue []
        (Nat.lt_succ_self _)]
    · intro hnd
      simp only [resolveAll, h, Bool.false_eq_true, if_false]
      rw [resolveAllGo_results strategy (st.queue.length + 1) st.queue []
        (Nat.lt_succ_self _) hnd]
      simp

/-- Concrete instantiation of C7: a two-item queue drained with
`last-write-wins` yields both resolutions in order, an empty queue, and a
cleared busy flag. -/
theorem resolveAll_spec_witness :
    (resolveAll exResolverSt ("last-write-wins")).1 =
      .ok [{ id := "qa", resolved := "B" },
           { id := "qb", resolved := "Hello Universe" }] ∧
    (resolveAll exResolverSt ("last-write-wins")).2 =
      { queue := [], resolving := false } := by
  obtain ⟨-, h⟩ := resolveAll_spec exResolverSt ("last-write-wins")
  obtain ⟨hstate, hres⟩ := h rfl
  refine ⟨?_, hstate⟩
  rw [hres (by decide)]
  decide

/-! ### Claim C8 -/

/-- Claim C8: `saveNote(notebookId, note)` stores the note with its version
bumped by one over the passed note's version (a missing version reads as
0), `updatedAt` stamped with the save time, and the `notebookId` passed to
the call. -/
theorem saveNote_spec (nb : String) (note : NoteInput) (now : Int)
    (hid : note.id ≠ "") (hnb : nb ≠ "") :
    saveNote nb note now =
      .ok { id := note.id
            notebookId := nb
            content := note.content
            title := note.title
            updatedAt := now
            createdAt := jsOrNum note.createdAt now
            version := note.version.getD 0 + 1
            tags := note.tags.getD [] } := by
  simp [saveNote, hid, hnb]

/-- Concrete instantiation of C8: a note at version 3 is stored at version
4 with the save-time stamp and the requested notebook id. -/
theorem saveNote_spec_witness :
    saveNote "nb1"
        { id := "n1", content := "text", title := "t",
          version := some 3, createdAt := some 100, tags := some ["x"] }
        777 =
      .ok { id := "n1", notebookId := "nb1", content := "text",
            title := "t", updatedAt := 777, createdAt := 100,
            version := 4, tags := ["x"] } := by
  have h := saveNote_spec "nb1"
    { id := "n1", content := "text", title := "t", version := some 3,
      createdAt := some 100, tags := some ["x"] }
    777 (by decide) (by decide)
  rw [h]
  decide

/-! ### Claim C10 -/

/-- Claim C10: the manager's `resolveManually` is atomic on error — when
the conflict id is found but the content is empty or absent, the call
fails, the queue is unchanged and the resolved callback does not fire; the
item is removed and the callback fires exactly on a successful manual
resolution. -/
theorem managerResolveManually_atomic (queue : List QueuedConflict)
    (cid : String) (content : Option String) :
    (∀ item, queue.find? (fun i => i.id == cid) = some item →
      content.getD "" = "" →
      managerResolveManually queue cid content =
        { result :=
            .error ("Resolved content is required for manual resolution"),
          queue := queue, callbackFired := false }) ∧
    (∀ item, queue.find? (fun i => i.id == cid) = some item →
      content.getD "" ≠ "" →
      managerResolveManually queue cid content =
        { result := .ok (content.getD ""),
          queue := removeConflict queue cid, callbackFired := true }) ∧
    ((managerResolveManually queue cid content).callbackFired = true →
      (managerResolveManually queue cid content).result =
        .ok (content.getD "") ∧
      (managerResolveManually queue cid content).queue =
        removeConflict queue cid) := by
  refine ⟨?_, ?_, ?_⟩
  · intro item hfind hempty
    simp [managerResolveManually, hfind, resolverResolveManually, hempty]
  · intro item hfind hne
    simp [managerResolveManually, hfind, resolverResolveManually, hne]
  · intro hfired
    rcases hfind : queue.find? (fun i => i.id == cid) with _ | item
    · simp [managerResolveManually, hfind] at hfired
    · by_cases hempty : content.getD "" = ""
      · simp [managerResolveManually, hfind, resolverResolveManually,
          hempty] at hfired
      · constructor <;>
          simp [managerResolveManually, hfind, resolverResolveManually,
            hempty]

/-- Concrete instantiation of C10: empty content leaves a one-item queue
untouched with no callback; real content removes the item and fires it. -/
theorem managerResolveManually_atomic_witness :
    managerResolveManually [exItemQa] "qa" (some "") =
      { result :=
          .error ("Resolved content is required for manual resolution"),
        queue := [exItemQa], callbackFired := false } ∧
    managerResolveManually [exItemQa] "qa" (some "pick this") =
      { result := .ok ("pick this"), queue := [],
        callbackFired := true } := by
  constructor
  · exact (managerResolveManually_atomic [exItemQa] "qa" (some "")).1
      exItemQa (by decide) (by decide)
  · have h := (managerResolveManually_atomic [exItemQa] "qa"
      (some "pick this")).2.1 exItemQa (by decide) (by decide)
    rw [h]
    decide

/-! ### Decimal rendering: digits, uniqueness, and the absence of `_` -/

theorem digit36_ne_underscore {k : Nat} (h : k < 10) : digit36 k ≠ '_' := by
  interval_cases k <;> decide

theorem digit36_inj {a b : Nat} (ha : a < 10) (hb : b < 10) :
    digit36 a = digit36 b → a = b := by
  interval_cases a <;> interval_cases b <;> decide

theorem natBaseAux_zero (f : Nat) : natBaseAux 10 f 0 [] = [] := by
  cases f <;> rfl

theorem natBaseAux_append :
    ∀ (fuel n : Nat) (acc : List Char),
      natBaseAux 10 fuel n acc = natBaseAux 10 fuel n [] ++ acc := by
  intro fuel
  induction fuel with
  | zero => intro n acc; rfl
  | succ fuel ih =>
    intro n acc
    match n with
    | 0 => rfl
    | m + 1 =>
      show natBaseAux 10 fuel ((m + 1) / 10) (digit36 ((m + 1) % 10) :: acc) =
        natBaseAux 10 fuel ((m + 1) / 10) [digit36 ((m + 1) % 10)] ++ acc
      rw [ih ((m + 1) / 10) (digit36 ((m + 1) % 10) :: acc),
        ih ((m + 1) / 10) [digit36 ((m + 1) % 10)]]
      simp

theorem natBaseAux_no_underscore :
    ∀ (fuel n : Nat) (acc : List Char), (∀ ch ∈ acc, ch ≠ '_') →
      ∀ ch ∈ natBaseAux 10 fuel n acc, ch ≠ '_' := by
  intro fuel
  induction fuel with
  | zero => intro n acc hacc; exact hacc
  | succ fuel ih =>
    intro n acc hacc
    match n with
    | 0 => exact hacc
    | m + 1 =>
      refine ih ((m + 1) / 10) (digit36 ((m + 1) % 10) :: acc) ?_
      intro ch hch
      rcases List.mem_cons.mp hch with hch | hch
      · subst hch
        exact digit36_ne_underscore (Nat.mod_lt _ (by norm_num))
      · exact hacc ch hch

theorem natBaseAux_fuel :
    ∀ (f1 f2 n : Nat), n < 10 ^ f1 → n < 10 ^ f2 →
      natBaseAux 10 f1 n [] = natBaseAux 10 f2 n [] := by
  intro f1
  induction f1 with
  | zero =>
    intro f2 n h1 _
    have : n = 0 := by simpa using h1
    subst this
    rw [natBaseAux_zero, natBaseAux_zero]
  | succ f1 ih =>
    intro f2 n h1 h2
    match n with
    | 0 => rw [natBaseAux_zero, natBaseAux_zero]
    | m + 1 =>
      match f2 with
      | 0 => exact absurd h2 (by simp)
      | g2 + 1 =>
        show natBaseAux 10 f1 ((m + 1) / 10) [digit36 ((m + 1) % 10)] =
          natBaseAux 10 g2 ((m + 1) / 10) [digit36 ((m + 1) % 10)]
        rw [natBaseAux_append f1, natBaseAux_append g2]
        have hd1 : (m + 1) / 10 < 10 ^ f1 := by
          apply Nat.div_lt_of_lt_mul
          calc m + 1 < 10 ^ (f1 + 1) := h1
            _ = 10 * 10 ^ f1 := by ring
        have hd2 : (m + 1) / 10 < 10 ^ g2 := by
          apply Nat.div_lt_of_lt_mul
          calc m + 1 < 10 ^ (g2 + 1) := h2
            _ = 10 * 10 ^ g2 := by ring
        rw [ih g2 ((m + 1) / 10) hd1 hd2]

theorem decDigits_zero : decDigits 0 = [] := rfl

theorem decDigits_rec {n : Nat} (hn : n ≠ 0) :
    decDigits n = decDigits (n / 10) ++ [digit36 (n % 10)] := by
  match n, hn with
  | m + 1, _ =>
    show natBaseAux 10 (m + 1 + 1) (m + 1) [] = _
    have hstep : natBaseAux 10 (m + 1 + 1) (m + 1) [] =
        natBaseAux 10 (m + 1) ((m + 1) / 10) [digit36 ((m + 1) % 10)] := rfl
    rw [hstep, natBaseAux_append]
    have hfuel : natBaseAux 10 (m + 1) ((m + 1) / 10) [] =
        natBaseAux 10 ((m + 1) / 10 + 1) ((m + 1) / 10) [] := by
      refine natBaseAux_fuel (m + 1) ((m + 1) / 10 + 1) ((m + 1) / 10) ?_ ?_
      · calc (m + 1) / 10 ≤ m + 1 := Nat.div_le_self _ _
          _ < 10 ^ (m + 1) := @Nat.lt_pow_self 10 (by norm_num) _
      · calc (m + 1) / 10 < 10 ^ ((m + 1) / 10) :=
            @Nat.lt_pow_self 10 (by norm_num) _
          _ ≤ 10 ^ ((m + 1) / 10 + 1) :=
            Nat.pow_le_pow_right (by norm_num) (Nat.le_succ _)
    rw [hfuel]
    rfl

theorem decDigits_ne_nil {n : Nat} (hn : n ≠ 0) : decDigits n ≠ [] := by
  rw [decDigits_rec hn]
  simp

theorem decDigits_inj : ∀ (m n : Nat), decDigits m = decDigits n → m = n := by
  intro m
  induction m using Nat.strong_induction_on with
  | _ m ih =>
    intro n h
    by_cases hm : m = 0
    · subst hm
      by_cases hn : n = 0
      · omega
      · rw [decDigits_zero] at h
        exact absurd h.symm (decDigits_ne_nil hn)
    · by_cases hn : n = 0
      · subst hn
        rw [decDigits_zero] at h
        exact absurd h (decDigits_ne_nil hm)
      · rw [decDigits_rec hm, decDigits_rec hn] at h
        obtain ⟨hinit, hlast⟩ := List.append_inj' h rfl
        have hdig : m % 10 = n % 10 :=
          digit36_inj (Nat.mod_lt _ (by norm_num)) (Nat.mod_lt _ (by norm_num))
            (by simpa using hlast)
        have hdiv : m / 10 = n / 10 :=
          ih (m / 10) (Nat.div_lt_self (Nat.pos_of_ne_zero hm) (by norm_num))
            (n / 10) hinit
        omega

theorem natToBase10_no_underscore (n : Nat) :
    ∀ ch ∈ (natToBase 10 n).data, ch ≠ '_' := by
  by_cases hn : n = 0
  · subst hn; decide
  · intro ch hch
    have hform : (natToBase 10 n).data = natBaseAux 10 (n + 1) n [] := by
      simp [natToBase, hn]
    rw [hform] at hch
    exact natBaseAux_no_underscore (n + 1) n [] (by simp) ch hch

theorem decDigits_eq_zero_digit {n : Nat} (h : decDigits n = ['0']) :
    n = 0 := by
  by_contra hn
  rw [decDigits_rec hn] at h
  have h' : decDigits (n / 10) ++ [digit36 (n % 10)] = [] ++ ['0'] := by
    simpa using h
  obtain ⟨hinit, hlast⟩ := List.append_inj' h' rfl
  have h0 : digit36 (n % 10) = digit36 0 := by
    have hz : digit36 (n % 10) = '0' := by simpa using hlast
    rw [hz]; decide
  have hmod : n % 10 = 0 :=
    digit36_inj (Nat.mod_lt _ (by norm_num)) (by norm_num) h0
  have hdiv : n / 10 = 0 := by
    by_contra hne
    exact decDigits_ne_nil hne hinit
  omega

theorem natToBase10_data (k : Nat) :
    (natToBase 10 k).data = if k = 0 then ['0'] else decDigits k := by
  by_cases hk : k = 0
  · subst hk; rfl
  · simp [natToBase, hk, decDigits]

theorem natToBase10_inj {m n : Nat} (h : natToBase 10 m = natToBase 10 n) :
    m = n := by
  have hdata := congrArg String.data h
  rw [natToBase10_data m, natToBase10_data n] at hdata
  by_cases hm : m = 0 <;> by_cases hn : n = 0
  · omega
  · rw [if_pos hm, if_neg hn] at hdata
    exact absurd (decDigits_eq_zero_digit hdata.symm) hn
  · rw [if_neg hm, if_pos hn] at hdata
    exact absurd (decDigits_eq_zero_digit hdata) hm
  · rw [if_neg hm, if_neg hn] at hdata
    exact decDigits_inj m n hdata

theorem intToBase10_nonneg {t : Int} (ht : 0 ≤ t) :
    intToBase 10 t = natToBase 10 t.toNat := by
  simp [intToBase, not_lt.mpr ht]

theorem intToBase10_no_underscore {t : Int} (ht : 0 ≤ t) :
    ∀ ch ∈ (intToBase 10 t).data, ch ≠ '_' := by
  rw [intToBase10_nonneg ht]
  exact natToBase10_no_underscore _

theorem intToBase10_inj {t1 t2 : Int} (h1 : 0 ≤ t1) (h2 : 0 ≤ t2)
    (h : intToBase 10 t1 = intToBase 10 t2) : t1 = t2 := by
  rw [intToBase10_nonneg h1, intToBase10_nonneg h2] at h
  have := natToBase10_inj h
  omega

theorem split_at_first_sep :
    ∀ {xs : List Char} {ys us vs : List Char},
      (∀ c ∈ xs, c ≠ '_') → (∀ c ∈ ys, c ≠ '_') →
      xs ++ '_' :: us = ys ++ '_' :: vs → xs = ys ∧ us = vs := by
  intro xs
  induction xs with
  | nil =>
    intro ys us vs _ hys h
    cases ys with
    | nil => simpa using h
    | cons b bs =>
      exfalso
      simp only [List.nil_append, List.cons_append, List.cons.injEq] at h
      exact hys b (by simp) h.1.symm
  | cons a as ih =>
    intro ys us vs hxs hys h
    cases ys with
    | nil =>
      exfalso
      simp only [List.nil_append, List.cons_append, List.cons.injEq] at h
      exact hxs a (by simp) h.1
    | cons b bs =>
      simp only [List.cons_append, List.cons.injEq] at h
      obtain ⟨hab, hrest⟩ := h
      obtain ⟨hxy, huv⟩ := ih (fun c hc => hxs c (by simp [hc]))
        (fun c hc => hys c (by simp [hc])) hrest
      exact ⟨by rw [hab, hxy], huv⟩

theorem mkConflictId_inj {t1 t2 : Int} {r1 r2 : String}
    (ht1 : 0 ≤ t1) (ht2 : 0 ≤ t2)
    (h : mkConflictId t1 r1 = mkConflictId t2 r2) : t1 = t2 ∧ r1 = r2 := by
  have hund : ("_" : String).data = ['_'] := rfl
  have hform : ∀ (t : Int) (r : String),
      ("conflict_" ++ intToBase 10 t ++ "_" ++ r).data =
        ("conflict_" : String).data ++
          ((intToBase 10 t).data ++ ('_' :: r.data)) := by
    intro t r
    simp [String.data_append, hund, List.append_assoc]
  have hdata := congrArg String.data h
  unfold mkConflictId at hdata
  rw [hform t1 r1, hform t2 r2] at hdata
  have hcut := List.append_cancel_left hdata
  obtain ⟨hts, hrs⟩ := split_at_first_sep
    (intToBase10_no_underscore ht1) (intToBase10_no_underscore ht2) hcut
  exact ⟨intToBase10_inj ht1 ht2 (String.ext hts), String.ext hrs⟩

/-! ### Claim C9 (corrected) -/

/-- Counterexample to claim C9 as stated: two distinct conflicts enqueued
at the same instant with the same `Math.random` draw receive the same id,
so queue ids are not unconditionally unique. -/
theorem enqueueConflict_id_collision :
    (enqueueConflict (enqueueConflict [] exConcurrent 5 ("0000000zz"))
        exConflictAnc 5 ("0000000zz")).map QueuedConflict.id =
      ["conflict_5_0000000zz", "conflict_5_0000000zz"] ∧
    exConcurrent ≠ exConflictAnc ∧
    ¬ ((enqueueConflict (enqueueConflict [] exConcurrent 5 ("0000000zz"))
        exConflictAnc 5 ("0000000zz")).map QueuedConflict.id).Nodup := by
  refine ⟨by decide, by decide, by decide⟩

/-- Claim C9 (amended): every queued item's id is
`conflict_<timestamp>_<randomSuffix>`, and two items whose draws differ —
in timestamp or in random suffix — carry distinct ids (timestamps are
nonnegative epoch millis); uniqueness within the queue therefore holds
exactly when no two enqueues repeat both the timestamp and the random
draw. -/
theorem enqueueConflict_distinct_draws (q : List QueuedConflict)
    (c1 c2 : ConflictInfo) (t1 t2 : Int) (r1 r2 : String)
    (ht1 : 0 ≤ t1) (ht2 : 0 ≤ t2)
    (hdiff : t1 ≠ t2 ∨ r1 ≠ r2) :
    enqueueConflict (enqueueConflict q c1 t1 r1) c2 t2 r2 =
      q ++ [{ conflict := c1, timestamp := t1, id := mkConflictId t1 r1 },
            { conflict := c2, timestamp := t2, id := mkConflictId t2 r2 }] ∧
    mkConflictId t1 r1 ≠ mkConflictId t2 r2 := by
  constructor
  · simp [enqueueConflict]
  · intro h
    obtain ⟨hts, hrs⟩ := mkConflictId_inj ht1 ht2 h
    rcases hdiff with hd | hd
    · exact hd hts
    · exact hd hrs

/-- Concrete instantiation of the amended C9: same instant, different
random suffixes, distinct ids. -/
theorem enqueueConflict_distinct_draws_witness :
    enqueueConflict (enqueueConflict [] exConcurrent 5 ("aaa"))
        exConflictAnc 5 ("aab") =
      [{ conflict := exConcurrent, timestamp := 5,
         id := mkConflictId 5 ("aaa") },
       { conflict := exConflictAnc, timestamp := 5,
         id := mkConflictId 5 ("aab") }] ∧
    mkConflictId 5 ("aaa") ≠ mkConflictId 5 ("aab") := by
  have h := enqueueConflict_distinct_draws [] exConcurrent exConflictAnc
    5 5 ("aaa") ("aab") (by decide) (by decide) (Or.inr (by decide))
  simpa using h

end SyncNotes
